import Mathlib

/-!
Shallow embedding of the three data collectors of the
Tech-Demand-Sentiment-Dashboard repository
(`src/collectors/github.py`, `src/collectors/stackoverflow.py`,
`src/collectors/trends.py`).

External HTTP services are modelled as oracles: a function from the
request data (endpoint, params, attempt number) to the response the
service produces.  Wall-clock time is an explicit `now : Int` parameter
(seconds); parsed timestamps are `Int` seconds, and a field whose string
form may fail to parse with `%Y-%m-%dT%H:%M:%SZ` is an `Option Int`
(`none` = `strptime` raises `ValueError`).  Python float division is
modelled with `Rat`.  Python dicts keyed by strings are association
lists mutated with `dictInsert` (overwrite in place when the key is
present, append otherwise), which matches CPython's insertion-ordered
dict assignment.
-/

/-- Python dict assignment `d[k] = v`: overwrite in place if `k` is
present, append at the end otherwise (insertion order preserved). -/
def dictInsert {α : Type} (d : List (String × α)) (k : String) (v : α) :
    List (String × α) :=
  if k ∈ d.map Prod.fst then
    d.map (fun p => if p.1 = k then (k, v) else p)
  else
    d ++ [(k, v)]

/-- Python dict lookup `d.get(k)`: value at the first matching key. -/
def dictGet {α : Type} : List (String × α) → String → Option α
  | [], _ => none
  | p :: d, k => if p.1 = k then some p.2 else dictGet d k

/-- The batch-loop skeleton shared by the four batch query methods:
`for k in keys: d[k] = f(k)` starting from an empty dict. -/
def runBatch {α : Type} (f : String → α) (keys : List String) :
    List (String × α) :=
  keys.foldl (fun d k => dictInsert d k (f k)) []

/-- The list comprehension `[strptime(g(x)) for x in l]` /
`sum(1 for x in l ...)` date-parsing behaviour: the first element whose
field fails to parse raises, so the whole batch item fails (`none`). -/
def parseDates {α : Type} (f : α → Option Int) : List α → Option (List Int)
  | [] => some []
  | x :: xs =>
    match f x with
    | none => none
    | some d =>
      match parseDates f xs with
      | none => none
      | some ds => some (d :: ds)

/-- Arithmetic mean of a list of rationals (`series.mean()`); the empty
list gives `0`, which agrees with every guarded use in the source (the
pandas `NaN` mean of an empty slice only ever feeds `> 0` tests, where
it behaves like a non-positive value). -/
def listMean (s : List Rat) : Rat := s.sum / (s.length : Rat)

/-- `series.max()` over a nonempty series; `0` on the empty list. -/
def listMax (s : List Rat) : Rat := s.foldr max 0

/-- `series.min()` over a nonempty series modelled as the fold of `min`
over the head default. -/
def listMin (s : List Rat) : Rat :=
  match s with
  | [] => 0
  | x :: xs => xs.foldr min x

/-- `series.iloc[-1]` (last element); the source only evaluates it on a
nonempty series, `0` is the out-of-domain default. -/
def listLast (s : List Rat) : Rat := s.getLastD 0

namespace GH

/-- The rate-limit response headers of the GitHub API:
`X-RateLimit-Remaining` and `X-RateLimit-Reset`, each possibly absent. -/
structure Headers where
  remaining : Option Nat
  reset : Option Int
deriving DecidableEq

/-- The mutable rate-limit state of a `GitHubCollector` instance:
`self.rate_limit_remaining` and `self.rate_limit_reset`. -/
structure State where
  rateLimitRemaining : Nat
  rateLimitReset : Option Int
deriving DecidableEq

/-- The initial collector state (`rate_limit_remaining = 60`,
`rate_limit_reset = None`). -/
def initState : State := { rateLimitRemaining := 60, rateLimitReset := none }

/-- The header-update block of `GitHubCollector._make_request`:
`rate_limit_remaining = int(headers.get('X-RateLimit-Remaining', 0))`;
`rate_limit_reset` is only overwritten when the reset header is present. -/
def updateRateLimit (s : State) (h : Headers) : State :=
  { rateLimitRemaining := h.remaining.getD 0,
    rateLimitReset :=
      match h.reset with
      | some r => some r
      | none => s.rateLimitReset }

/-- One HTTP response as seen by `GitHubCollector._make_request`:
a 200 with a JSON body, a 403 (treated as throttling), another error
status (`raise_for_status` raises), or a transport failure in which no
response object exists. -/
inductive Response (β : Type) where
  | ok (headers : Headers) (body : β)
  | throttle (headers : Headers)
  | httpError (headers : Headers)
  | netError
deriving DecidableEq

/-- `true` exactly on the 403 throttling responses. -/
def Response.isThrottle {β : Type} : Response β → Bool
  | .throttle _ => true
  | _ => false

/-- What `GitHubCollector._make_request` returns to its caller: the
decoded JSON body, or the `{}` produced by the `RequestException`
handler. -/
inductive Ret (β : Type) where
  | json (body : β)
  | emptyDict
deriving DecidableEq

/-- Observable outcome of a run of `_make_request`: the returned value
(`none` when the run is still inside the retry recursion after `fuel`
responses, i.e. has not returned), the list of `time.sleep` durations in
order, and the final rate-limit state. -/
structure RunOut (β : Type) where
  result : Option (Ret β)
  sleeps : List Int
  state : State
deriving DecidableEq

/-- `GitHubCollector._make_request(endpoint, params)` driven by a
service oracle `svc endpoint params attempt`.  On a response: update the
rate-limit state from the headers; on 403 sleep
`max(reset - now, 60)` when a reset time is known (else `60`) and retry
the same endpoint and params; on success return the body; on another
HTTP error return `{}` (the `raise_for_status` exception is caught by
the same handler as transport failures); on transport failure return
`{}` with the state untouched.  `fuel` bounds how many responses the run
may consume; running out of fuel models a run that has not returned. -/
def makeRequest {β ε π : Type} (svc : ε → π → Nat → Response β)
    (endpoint : ε) (params : π) (now : Int) :
    State → Nat → Nat → RunOut β
  | s, _, 0 => ⟨none, [], s⟩
  | s, attempt, fuel + 1 =>
    match svc endpoint params attempt with
    | .netError => ⟨some .emptyDict, [], s⟩
    | .ok h b => ⟨some (.json b), [], updateRateLimit s h⟩
    | .httpError h => ⟨some .emptyDict, [], updateRateLimit s h⟩
    | .throttle h =>
      let s' := updateRateLimit s h
      let w : Int :=
        match s'.rateLimitReset with
        | some reset => max (reset - now) 60
        | none => 60
      let rest := makeRequest svc endpoint params now s' (attempt + 1) fuel
      ⟨rest.result, w :: rest.sleeps, rest.state⟩

/-- One repository item of a `/search/repositories` response, with the
fields `get_language_stats` / `get_tech_popularity_metrics` read.
`createdAt` / `updatedAt` are the `strptime` parse results of the
`created_at` / `updated_at` strings (`none` = unparseable). -/
structure Repo where
  stargazersCount : Nat
  forksCount : Nat
  watchersCount : Nat
  openIssuesCount : Nat
  createdAt : Option Int
  updatedAt : Option Int
deriving DecidableEq

/-- The per-language statistics record built by
`GitHubCollector.get_language_stats`. -/
structure LangStats where
  totalRepos : Nat
  totalStars : Nat
  totalForks : Nat
  totalWatchers : Nat
  avgStars : Rat
  recentRepos : Nat
  timestamp : Int
deriving DecidableEq

/-- `LangStats` without the `timestamp` field recorded at build time. -/
structure LangStatsCore where
  totalRepos : Nat
  totalStars : Nat
  totalForks : Nat
  totalWatchers : Nat
  avgStars : Rat
  recentRepos : Nat
deriving DecidableEq

/-- Drop the run-time `timestamp` field. -/
def LangStats.core (s : LangStats) : LangStatsCore :=
  { totalRepos := s.totalRepos, totalStars := s.totalStars,
    totalForks := s.totalForks, totalWatchers := s.totalWatchers,
    avgStars := s.avgStars, recentRepos := s.recentRepos }

/-- The per-language body of the `get_language_stats` loop: `None` when
the search returned no items, `None` when some `created_at` fails to
parse (the `strptime` `ValueError` is caught by the per-language
handler), otherwise the statistics record. `recent_repos` counts repos
created strictly after `now - 30 days`. -/
def computeLangStats (now : Int) (repos : List Repo) : Option LangStats :=
  if repos = [] then none
  else
    match parseDates (fun r => r.createdAt) repos with
    | none => none
    | some dates =>
      some { totalRepos := repos.length,
             totalStars := (repos.map (fun r => r.stargazersCount)).sum,
             totalForks := (repos.map (fun r => r.forksCount)).sum,
             totalWatchers := (repos.map (fun r => r.watchersCount)).sum,
             avgStars := ((repos.map (fun r => r.stargazersCount)).sum : Rat) /
               (repos.length : Rat),
             recentRepos :=
               (dates.filter (fun d => now - 30 * 86400 < d)).length,
             timestamp := now }

/-- `GitHubCollector.get_language_stats(languages)` with the repository
search modelled by `searchO language` (the `items` list of the
response; a transport failure yields `[]` via `response.get('items', [])`
on the `{}` fallback). -/
def get_language_stats (searchO : String → List Repo) (now : Int)
    (languages : List String) : List (String × Option LangStats) :=
  languages.foldl
    (fun stats lang => dictInsert stats lang (computeLangStats now (searchO lang)))
    []

/-- The per-technology metrics record built by
`GitHubCollector.get_tech_popularity_metrics`. -/
structure PopMetrics where
  repoCount : Nat
  totalStars : Nat
  totalForks : Nat
  avgStars : Rat
  avgForks : Rat
  openIssues : Nat
  recentActivity : Nat
  timestamp : Int
deriving DecidableEq

/-- The per-technology body of the `get_tech_popularity_metrics` loop:
`None` on an empty `items` list, `None` when some `updated_at` fails to
parse, otherwise the metrics.  `recent_activity` counts repos updated
strictly after `now - 7 days`. -/
def computePopMetrics (now : Int) (repos : List Repo) : Option PopMetrics :=
  if repos = [] then none
  else
    match parseDates (fun r => r.updatedAt) repos with
    | none => none
    | some dates =>
      some { repoCount := repos.length,
             totalStars := (repos.map (fun r => r.stargazersCount)).sum,
             totalForks := (repos.map (fun r => r.forksCount)).sum,
             avgStars := ((repos.map (fun r => r.stargazersCount)).sum : Rat) /
               (repos.length : Rat),
             avgForks := ((repos.map (fun r => r.forksCount)).sum : Rat) /
               (repos.length : Rat),
             openIssues := (repos.map (fun r => r.openIssuesCount)).sum,
             recentActivity :=
               (dates.filter (fun d => now - 7 * 86400 < d)).length,
             timestamp := now }

/-- `GitHubCollector.get_tech_popularity_metrics(tech_list)` with the
repository search modelled by `searchO tech`. -/
def get_tech_popularity_metrics (searchO : String → List Repo) (now : Int)
    (techList : List String) : List (String × Option PopMetrics) :=
  techList.foldl
    (fun metrics tech => dictInsert metrics tech (computePopMetrics now (searchO tech)))
    []

end GH

namespace SO

/-- The rate-limit headers read by `StackOverflowCollector._make_request`
(`X-RateLimit-Remaining`, possibly absent). -/
structure Headers where
  remaining : Option Nat
deriving DecidableEq

/-- The mutable state of a `StackOverflowCollector` instance that
`_make_request` updates (`self.rate_limit_remaining`). -/
structure State where
  rateLimitRemaining : Nat
deriving DecidableEq

/-- The initial collector state (`rate_limit_remaining = 300`). -/
def initState : State := { rateLimitRemaining := 300 }

/-- `rate_limit_remaining = int(headers.get('X-RateLimit-Remaining', 0))`. -/
def updateRateLimit (_ : State) (h : Headers) : State :=
  { rateLimitRemaining := h.remaining.getD 0 }

/-- One HTTP response as seen by `StackOverflowCollector._make_request`:
a 200 with a (possibly gzip-decompressed) JSON body, a 429 throttling
response, another error status, or a transport failure. -/
inductive Response (β : Type) where
  | ok (headers : Headers) (body : β)
  | throttle (headers : Headers)
  | httpError (headers : Headers)
  | netError
deriving DecidableEq

/-- `true` exactly on the 429 throttling responses. -/
def Response.isThrottle {β : Type} : Response β → Bool
  | .throttle _ => true
  | _ => false

/-- What `StackOverflowCollector._make_request` returns: the decoded
body, or the `{'items': [], 'has_more': False}` default envelope from
the `RequestException` handler. -/
inductive Ret (β : Type) where
  | json (body : β)
  | defaultEnvelope
deriving DecidableEq

/-- Observable outcome of a run of the Stack Overflow `_make_request`. -/
structure RunOut (β : Type) where
  result : Option (Ret β)
  sleeps : List Int
  state : State
deriving DecidableEq

/-- `StackOverflowCollector._make_request(endpoint, params)` driven by a
service oracle.  On a response: update `rate_limit_remaining`; on 429
sleep a fixed 60 seconds and retry the same endpoint and params; on
success return the body; on another HTTP error return the default
envelope (`raise_for_status` raises into the same handler); on transport
failure return the default envelope with the state untouched. -/
def makeRequest {β ε π : Type} (svc : ε → π → Nat → Response β)
    (endpoint : ε) (params : π) :
    State → Nat → Nat → RunOut β
  | s, _, 0 => ⟨none, [], s⟩
  | s, attempt, fuel + 1 =>
    match svc endpoint params attempt with
    | .netError => ⟨some .defaultEnvelope, [], s⟩
    | .ok h b => ⟨some (.json b), [], updateRateLimit s h⟩
    | .httpError h => ⟨some .defaultEnvelope, [], updateRateLimit s h⟩
    | .throttle h =>
      let s' := updateRateLimit s h
      let rest := makeRequest svc endpoint params s' (attempt + 1) fuel
      ⟨rest.result, (60 : Int) :: rest.sleeps, rest.state⟩

/-- One question item of a `/questions` response, with the fields read
by `get_tech_demand_metrics`. -/
structure Question where
  score : Int
  answerCount : Nat
  viewCount : Nat
deriving DecidableEq

/-- The first item of a `/tags/{tag}/info` response, with the fields
read by `get_tech_demand_metrics`. -/
structure TagInfo where
  count : Nat
  lastActivityDate : Option Int
deriving DecidableEq

/-- The per-technology metrics record built by
`StackOverflowCollector.get_tech_demand_metrics`. -/
structure DemandMetrics where
  totalQuestions : Nat
  recentQuestions : Nat
  avgScore : Rat
  avgAnswers : Rat
  avgViews : Rat
  lastActivity : Option Int
  timestamp : Int
deriving DecidableEq

/-- `DemandMetrics` without the run-time `timestamp` field. -/
structure DemandMetricsCore where
  totalQuestions : Nat
  recentQuestions : Nat
  avgScore : Rat
  avgAnswers : Rat
  avgViews : Rat
  lastActivity : Option Int
deriving DecidableEq

/-- Drop the run-time `timestamp` field. -/
def DemandMetrics.core (m : DemandMetrics) : DemandMetricsCore :=
  { totalQuestions := m.totalQuestions, recentQuestions := m.recentQuestions,
    avgScore := m.avgScore, avgAnswers := m.avgAnswers,
    avgViews := m.avgViews, lastActivity := m.lastActivity }

/-- The per-technology body of the `get_tech_demand_metrics` loop.
`tag_info = response.get('items', [{}])[0]` raises `IndexError` on an
empty items list, caught by the per-technology handler, hence `none`;
otherwise the first info item feeds the record, and the averages divide
by `max(len(recent_questions), 1)`. -/
def computeDemandMetrics (now : Int) (questions : List Question)
    (infoItems : List TagInfo) : Option DemandMetrics :=
  match infoItems with
  | [] => none
  | info :: _ =>
    some { totalQuestions := info.count,
           recentQuestions := questions.length,
           avgScore := ((questions.map (fun q => q.score)).sum : Rat) /
             ((max questions.length 1 : Nat) : Rat),
           avgAnswers := ((questions.map (fun q => q.answerCount)).sum : Rat) /
             ((max questions.length 1 : Nat) : Rat),
           avgViews := ((questions.map (fun q => q.viewCount)).sum : Rat) /
             ((max questions.length 1 : Nat) : Rat),
           lastActivity := info.lastActivityDate,
           timestamp := now }

/-- `StackOverflowCollector.get_tech_demand_metrics(tech_list)`.
`questionsO tech fromdate` models the items of the `/questions` request
issued by `get_tag_questions(tech, fromdate=now - 7 days)`;
`infoO tech` models the items of the `/tags/{tech}/info` request. -/
def get_tech_demand_metrics (questionsO : String → Int → List Question)
    (infoO : String → List TagInfo) (now : Int)
    (techList : List String) : List (String × Option DemandMetrics) :=
  techList.foldl
    (fun metrics tech =>
      dictInsert metrics tech
        (computeDemandMetrics now (questionsO tech (now - 7 * 86400)) (infoO tech)))
    []

end SO

namespace Trends

/-- `GoogleTrendsCollector.get_interest_over_time(keywords, timeframe,
geo)`: the payload is built from `keywords[:5]` (silent truncation to
the first five), and the oracle `o kwList timeframe geo` models the
library round-trip — `none` for an empty DataFrame (including the
exception path, which returns an empty DataFrame), `some cols` for the
keyword columns of a nonempty one. -/
def get_interest_over_time
    (o : List String → String → String → Option (List (String × List Rat)))
    (keywords : List String) (timeframe geo : String) :
    Option (List (String × List Rat)) :=
  o (keywords.take 5) timeframe geo

/-- `GoogleTrendsCollector.get_interest_by_region(keywords, resolution,
timeframe)`: the payload is likewise built from `keywords[:5]`. -/
def get_interest_by_region
    (o : List String → String → String → Option (List (String × List Rat)))
    (keywords : List String) (resolution timeframe : String) :
    Option (List (String × List Rat)) :=
  o (keywords.take 5) resolution timeframe

/-- The chunking loop `for i in range(0, len(tech_list), 5):
batch = tech_list[i:i+5]` of `compare_technologies`, as the list of
successive batches. -/
def chunks5 {α : Type} (l : List α) : List (List α) :=
  if l.isEmpty then [] else l.take 5 :: chunks5 (l.drop 5)
termination_by l.length
decreasing_by
  rename_i h
  have hne : l.length ≠ 0 := by
    intro hz
    exact h (by simp [List.isEmpty_iff, List.eq_nil_of_length_eq_zero hz])
  simp only [List.length_drop]
  omega

/-- The per-technology statistics record built by
`compare_technologies`.  `std` abstracts `series.std()` (a square root,
kept as an uninterpreted parameter of the embedding). -/
structure TechStats where
  avgInterest : Rat
  maxInterest : Rat
  minInterest : Rat
  currentInterest : Rat
  trend : String
  volatility : Rat
  dataPoints : Nat
deriving DecidableEq

/-- The record `compare_technologies` stores for one keyword column. -/
def mkTechStats (std : List Rat → Rat) (series : List Rat) : TechStats :=
  { avgInterest := listMean series,
    maxInterest := listMax series,
    minInterest := listMin series,
    currentInterest := listLast series,
    trend := if listMean series < listLast series then "rising" else "declining",
    volatility := std series,
    dataPoints := series.length }

/-- The full return value of `compare_technologies`. -/
structure ComparisonResult where
  timeframe : String
  geo : String
  timestamp : Int
  technologies : List (String × TechStats)
deriving DecidableEq

/-- The body of one chunk iteration of `compare_technologies`: fetch
interest over time for the batch; on an empty DataFrame keep the
accumulator; otherwise add an entry for each batch keyword present as a
column. -/
def compareBatchStep
    (o : List String → String → String → Option (List (String × List Rat)))
    (std : List Rat → Rat) (timeframe geo : String)
    (acc : List (String × TechStats)) (batch : List String) :
    List (String × TechStats) :=
  match get_interest_over_time o batch timeframe geo with
  | none => acc
  | some cols =>
    batch.foldl
      (fun a tech =>
        match dictGet cols tech with
        | none => a
        | some series => dictInsert a tech (mkTechStats std series))
      acc

/-- `GoogleTrendsCollector.compare_technologies(tech_list, timeframe,
geo)`: process the keyword list in chunks of five, one
interest-over-time request per chunk, merging per-keyword records into
`results['technologies']`. -/
def compare_technologies
    (o : List String → String → String → Option (List (String × List Rat)))
    (std : List Rat → Rat) (now : Int) (timeframe geo : String)
    (techList : List String) : ComparisonResult :=
  { timeframe := timeframe,
    geo := geo,
    timestamp := now,
    technologies :=
      (chunks5 techList).foldl (compareBatchStep o std timeframe geo) [] }

/-- Whether keyword `t` is recorded when its chunk `c` is processed:
the chunk's interest-over-time response is a nonempty DataFrame with a
column for `t` (`if not interest_df.empty: ... if tech in
interest_df.columns`). -/
def colPresent
    (o : List String → String → String → Option (List (String × List Rat)))
    (timeframe geo : String) (c : List String) (t : String) : Bool :=
  match get_interest_over_time o c timeframe geo with
  | none => false
  | some cols => (dictGet cols t).isSome

/-- The per-period statistics record built by `get_tech_demand_trends`. -/
structure PeriodStats where
  avgInterest : Rat
  current : Rat
  peak : Rat
  growthRate : Rat
  consistency : Rat
deriving DecidableEq

/-- The record `get_tech_demand_trends` stores for one period:
growth rate compares the mean of the first half of the series with the
mean of the second; consistency is `1 - std/mean` when the mean is
positive. -/
def mkPeriodStats (std : List Rat → Rat) (series : List Rat) : PeriodStats :=
  let firstHalf := listMean (series.take (series.length / 2))
  let secondHalf := listMean (series.drop (series.length / 2))
  { avgInterest := listMean series,
    current := listLast series,
    peak := listMax series,
    growthRate :=
      if 0 < firstHalf then (secondHalf - firstHalf) / firstHalf * 100 else 0,
    consistency :=
      if 0 < listMean series then 1 - std series / listMean series else 0 }

/-- The per-technology record built by `get_tech_demand_trends`. -/
structure TrendData where
  name : String
  periods : List (String × PeriodStats)
  timestamp : Int
deriving DecidableEq

/-- The per-technology body of the `get_tech_demand_trends` loop: for
each period, fetch interest over time for `[tech]` and, when the
DataFrame is nonempty and has the keyword column, store the period
statistics. -/
def computeTrendData
    (o : List String → String → String → Option (List (String × List Rat)))
    (std : List Rat → Rat) (now : Int) (periods : List String)
    (tech : String) : TrendData :=
  { name := tech,
    periods :=
      periods.foldl
        (fun pacc period =>
          match get_interest_over_time o [tech] period "" with
          | none => pacc
          | some cols =>
            match dictGet cols tech with
            | none => pacc
            | some series => dictInsert pacc period (mkPeriodStats std series))
        [],
    timestamp := now }

/-- `GoogleTrendsCollector.get_tech_demand_trends(tech_list, periods)`:
one entry per technology, each a `TrendData` record (the per-technology
exception handler would record `None`, hence the `Option`). -/
def get_tech_demand_trends
    (o : List String → String → String → Option (List (String × List Rat)))
    (std : List Rat → Rat) (now : Int) (periods : List String)
    (techList : List String) : List (String × Option TrendData) :=
  techList.foldl
    (fun trends tech =>
      dictInsert trends tech (some (computeTrendData o std now periods tech)))
    []

end Trends

/-! ## Helper lemmas about the dict model -/

theorem dictInsert_of_not_mem {α : Type} (d : List (String × α)) (k : String)
    (v : α) (h : k ∉ d.map Prod.fst) : dictInsert d k v = d ++ [(k, v)] := by
  unfold dictInsert
  rw [if_neg h]

theorem dictGet_eq_none_of_not_mem {α : Type} (d : List (String × α))
    (k : String) (h : k ∉ d.map Prod.fst) : dictGet d k = none := by
  induction d with
  | nil => rfl
  | cons p d ih =>
    simp only [List.map_cons, List.mem_cons, not_or] at h
    simp only [dictGet]
    rw [if_neg (fun hpk => h.1 hpk.symm)]
    exact ih h.2

theorem dictGet_append {α : Type} (d₁ d₂ : List (String × α)) (k : String) :
    dictGet (d₁ ++ d₂) k =
      match dictGet d₁ k with
      | some v => some v
      | none => dictGet d₂ k := by
  induction d₁ with
  | nil => rfl
  | cons p d ih =>
    simp only [List.cons_append, dictGet]
    by_cases hpk : p.1 = k
    · simp [hpk]
    · simp only [if_neg hpk]
      exact ih

theorem dictGet_map_overwrite {α : Type} (a k : String) (v : α) (h : k ≠ a) :
    ∀ d : List (String × α),
    dictGet (d.map (fun p => if p.1 = a then (a, v) else p)) k = dictGet d k
  | [] => rfl
  | p :: d => by
    simp only [List.map_cons]
    by_cases hpa : p.1 = a
    · rw [if_pos hpa]
      show (if a = k then some v else _) = if p.1 = k then some p.2 else _
      rw [if_neg (fun hak => h hak.symm), if_neg (fun hpk => h (hpa ▸ hpk).symm)]
      exact dictGet_map_overwrite a k v h d
    · rw [if_neg hpa]
      show (if p.1 = k then some p.2 else _) = if p.1 = k then some p.2 else _
      by_cases hpk : p.1 = k
      · rw [if_pos hpk, if_pos hpk]
      · rw [if_neg hpk, if_neg hpk]
        exact dictGet_map_overwrite a k v h d

theorem dictGet_dictInsert_ne {α : Type} (d : List (String × α))
    (a k : String) (v : α) (h : k ≠ a) :
    dictGet (dictInsert d a v) k = dictGet d k := by
  unfold dictInsert
  by_cases hmem : a ∈ d.map Prod.fst
  · rw [if_pos hmem]
    exact dictGet_map_overwrite a k v h d
  · rw [if_neg hmem]
    rw [dictGet_append]
    cases hd : dictGet d k with
    | some v => rfl
    | none =>
      simp only [dictGet]
      rw [if_neg (fun hak => h hak.symm)]

theorem foldl_dictInsert_keys {α : Type} (f : String → α) :
    ∀ (ks : List String) (d : List (String × α)), ks.Nodup →
    (∀ k ∈ ks, k ∉ d.map Prod.fst) →
    (ks.foldl (fun d k => dictInsert d k (f k)) d).map Prod.fst =
      d.map Prod.fst ++ ks
  | [], d, _, _ => by simp
  | a :: ks, d, hnd, hfresh => by
    simp only [List.foldl_cons]
    rw [dictInsert_of_not_mem d a (f a) (hfresh a (List.mem_cons_self a ks))]
    have hnd' : ks.Nodup := (List.nodup_cons.mp hnd).2
    have hna : a ∉ ks := (List.nodup_cons.mp hnd).1
    have hfresh' : ∀ k ∈ ks, k ∉ (d ++ [(a, f a)]).map Prod.fst := by
      intro k hk
      simp only [List.map_append, List.mem_append, List.map_cons, List.map_nil,
        List.mem_singleton, not_or]
      exact ⟨hfresh k (List.mem_cons_of_mem a hk),
        fun hka => hna (hka ▸ hk)⟩
    rw [foldl_dictInsert_keys f ks (d ++ [(a, f a)]) hnd' hfresh']
    simp

theorem foldl_dictInsert_get_not_mem {α : Type} (f : String → α) :
    ∀ (ks : List String) (d : List (String × α)) (k : String), k ∉ ks →
    dictGet (ks.foldl (fun d k => dictInsert d k (f k)) d) k = dictGet d k
  | [], _, _, _ => rfl
  | a :: ks, d, k, hk => by
    simp only [List.mem_cons, not_or] at hk
    simp only [List.foldl_cons]
    rw [foldl_dictInsert_get_not_mem f ks _ k hk.2]
    exact dictGet_dictInsert_ne d a k (f a) hk.1

theorem foldl_dictInsert_get {α : Type} (f : String → α) :
    ∀ (ks : List String) (d : List (String × α)), ks.Nodup →
    (∀ k ∈ ks, k ∉ d.map Prod.fst) →
    ∀ k ∈ ks, dictGet (ks.foldl (fun d k => dictInsert d k (f k)) d) k =
      some (f k)
  | [], _, _, _, k, hk => absurd hk (List.not_mem_nil k)
  | a :: ks, d, hnd, hfresh, k, hk => by
    simp only [List.foldl_cons]
    have hnd' : ks.Nodup := (List.nodup_cons.mp hnd).2
    have hna : a ∉ ks := (List.nodup_cons.mp hnd).1
    rw [dictInsert_of_not_mem d a (f a) (hfresh a (List.mem_cons_self a ks))]
    rcases List.mem_cons.mp hk with hka | hks
    · subst hka
      rw [foldl_dictInsert_get_not_mem f ks _ k hna]
      rw [dictGet_append]
      rw [dictGet_eq_none_of_not_mem d k (hfresh k (List.mem_cons_self k ks))]
      simp [dictGet]
    · have hfresh' : ∀ k' ∈ ks, k' ∉ (d ++ [(a, f a)]).map Prod.fst := by
        intro k' hk'
        simp only [List.map_append, List.mem_append, List.map_cons,
          List.map_nil, List.mem_singleton, not_or]
        exact ⟨hfresh k' (List.mem_cons_of_mem a hk'),
          fun hka => hna (hka ▸ hk')⟩
      exact foldl_dictInsert_get f ks (d ++ [(a, f a)]) hnd' hfresh' k hks

theorem foldl_dictInsert_congr {α : Type} (f g : String → α) :
    ∀ (ks : List String) (d : List (String × α)),
    (∀ k ∈ ks, f k = g k) →
    ks.foldl (fun d k => dictInsert d k (f k)) d =
      ks.foldl (fun d k => dictInsert d k (g k)) d
  | [], _, _ => rfl
  | a :: ks, d, h => by
    simp only [List.foldl_cons]
    rw [h a (List.mem_cons_self a ks)]
    exact foldl_dictInsert_congr f g ks _ (fun k hk => h k (List.mem_cons_of_mem a hk))

theorem parseDates_filter_count {α : Type} (f : α → Option Int) (p : Int → Bool) :
    ∀ (l : List α) (ds : List Int), parseDates f l = some ds →
    (ds.filter p).length =
      l.countP (fun x => match f x with | some d => p d | none => false)
  | [], ds, h => by
    simp only [parseDates, Option.some_inj] at h
    subst h
    simp
  | x :: l, ds, h => by
    simp only [parseDates] at h
    cases hfx : f x with
    | none => rw [hfx] at h; exact absurd h (by simp)
    | some d =>
      rw [hfx] at h
      cases hrec : parseDates f l with
      | none => rw [hrec] at h; exact absurd h (by simp)
      | some ds' =>
        rw [hrec] at h
        simp only [Option.some_inj] at h
        subst h
        rw [List.countP_cons]
        have ih := parseDates_filter_count f p l ds' hrec
        by_cases hpd : p d
        · simp [List.filter_cons, hpd, hfx, ih]
        · simp [List.filter_cons, hpd, hfx, ih]

/-- C4: in the recent-activity counts (`recent_repos` in
`get_language_stats`, `recent_activity` in
`get_tech_popularity_metrics`), only items whose parsed timestamp is
strictly greater than the cutoff (`now - 30` days, resp. `now - 7`
days) are counted; an item whose timestamp equals the cutoff exactly
contributes nothing. -/
theorem recent_counts_strict (now : Int) (repos repos2 : List GH.Repo)
    (s : GH.LangStats) (m : GH.PopMetrics)
    (hs : GH.computeLangStats now repos = some s)
    (hm : GH.computePopMetrics now repos2 = some m) :
    s.recentRepos = repos.countP
      (fun r => match r.createdAt with
        | some d => decide (now - 30 * 86400 < d)
        | none => false) ∧
    m.recentActivity = repos2.countP
      (fun r => match r.updatedAt with
        | some d => decide (now - 7 * 86400 < d)
        | none => false) ∧
    (∀ r ∈ repos, r.createdAt = some (now - 30 * 86400) →
      (match r.createdAt with
        | some d => decide (now - 30 * 86400 < d)
        | none => false) = false) ∧
    (∀ r ∈ repos2, r.updatedAt = some (now - 7 * 86400) →
      (match r.updatedAt with
        | some d => decide (now - 7 * 86400 < d)
        | none => false) = false) := by
  refine ⟨?_, ?_, ?_, ?_⟩
  · unfold GH.computeLangStats at hs
    split at hs
    · exact absurd hs (by simp)
    · split at hs
      · exact absurd hs (by simp)
      · rename_i dates hpd
        simp only [Option.some_inj] at hs
        subst hs
        simpa using parseDates_filter_count (fun r => r.createdAt)
          (fun d => decide (now - 30 * 86400 < d)) repos dates hpd
  · unfold GH.computePopMetrics at hm
    split at hm
    · exact absurd hm (by simp)
    · split at hm
      · exact absurd hm (by simp)
      · rename_i dates hpd
        simp only [Option.some_inj] at hm
        subst hm
        simpa using parseDates_filter_count (fun r => r.updatedAt)
          (fun d => decide (now - 7 * 86400 < d)) repos2 dates hpd
  · intro r _ hca
    rw [hca]
    simp
  · intro r _ hua
    rw [hua]
    simp

/-- Witness for `recent_counts_strict`: a repo created exactly 30 days
before `now = 0` and a repo updated exactly 7 days before are not
counted as recent. -/
theorem recent_counts_strict_witness :
    GH.computeLangStats 0 [(⟨4, 2, 1, 0, some (-2592000), some 1⟩ : GH.Repo)] =
      some { totalRepos := 1, totalStars := 4, totalForks := 2,
             totalWatchers := 1, avgStars := 4, recentRepos := 0,
             timestamp := 0 } ∧
    ({ totalRepos := 1, totalStars := 4, totalForks := 2, totalWatchers := 1,
       avgStars := 4, recentRepos := 0, timestamp := 0 } : GH.LangStats).recentRepos =
      [(⟨4, 2, 1, 0, some (-2592000), some 1⟩ : GH.Repo)].countP
        (fun r => match r.createdAt with
          | some d => decide ((0 : Int) - 30 * 86400 < d)
          | none => false) ∧
    ({ repoCount := 1, totalStars := 4, totalForks := 2, avgStars := 4,
       avgForks := 2, openIssues := 3, recentActivity := 0,
       timestamp := 0 } : GH.PopMetrics).recentActivity =
      [(⟨4, 2, 1, 3, some 0, some (-604800)⟩ : GH.Repo)].countP
        (fun r => match r.updatedAt with
          | some d => decide ((0 : Int) - 7 * 86400 < d)
          | none => false) := by
  have h := recent_counts_strict 0
    [(⟨4, 2, 1, 0, some (-2592000), some 1⟩ : GH.Repo)]
    [(⟨4, 2, 1, 3, some 0, some (-604800)⟩ : GH.Repo)]
    { totalRepos := 1, totalStars := 4, totalForks := 2, totalWatchers := 1,
      avgStars := 4, recentRepos := 0, timestamp := 0 }
    { repoCount := 1, totalStars := 4, totalForks := 2, avgStars := 4,
      avgForks := 2, openIssues := 3, recentActivity := 0, timestamp := 0 }
    (by simp [GH.computeLangStats, parseDates])
    (by simp [GH.computePopMetrics, parseDates])
  exact ⟨by simp [GH.computeLangStats, parseDates], h.1, h.2.1⟩

/-- C5: on a 403 the GitHub request executor updates its rate-limit
state from the response headers, sleeps `max(reset - now, 60)` when a
reset timestamp is known (the fixed fallback `60` otherwise), and
retries with the same endpoint and params; on a 429 the Stack Overflow
executor sleeps a fixed 60 seconds and retries with the same endpoint
and params. -/
theorem throttle_wait_and_retry {β ε π β' ε' π' : Type}
    (gsvc : ε → π → Nat → GH.Response β) (e : ε) (p : π) (now : Int)
    (s : GH.State) (hd : GH.Headers) (fuel : Nat)
    (ssvc : ε' → π' → Nat → SO.Response β') (e' : ε') (p' : π')
    (s' : SO.State) (hd' : SO.Headers) (fuel' : Nat)
    (hg : gsvc e p 0 = .throttle hd) (hso : ssvc e' p' 0 = .throttle hd') :
    GH.makeRequest gsvc e p now s 0 (fuel + 1) =
      { result := (GH.makeRequest gsvc e p now (GH.updateRateLimit s hd) 1 fuel).result,
        sleeps :=
          (match (GH.updateRateLimit s hd).rateLimitReset with
            | some reset => max (reset - now) 60
            | none => 60) ::
          (GH.makeRequest gsvc e p now (GH.updateRateLimit s hd) 1 fuel).sleeps,
        state := (GH.makeRequest gsvc e p now (GH.updateRateLimit s hd) 1 fuel).state } ∧
    SO.makeRequest ssvc e' p' s' 0 (fuel' + 1) =
      { result := (SO.makeRequest ssvc e' p' (SO.updateRateLimit s' hd') 1 fuel').result,
        sleeps :=
          (60 : Int) ::
          (SO.makeRequest ssvc e' p' (SO.updateRateLimit s' hd') 1 fuel').sleeps,
        state := (SO.makeRequest ssvc e' p' (SO.updateRateLimit s' hd') 1 fuel').state } := by
  constructor
  · simp only [GH.makeRequest, hg]
  · simp only [SO.makeRequest, hso]

/-- Witness for `throttle_wait_and_retry`: a service that throttles on
the first attempt (reset known at 1000) and succeeds afterwards. -/
theorem throttle_wait_and_retry_witness :
    GH.makeRequest
      (fun (_ : Unit) (_ : Unit) k =>
        if k = 0 then GH.Response.throttle ⟨some 5, some 1000⟩
        else GH.Response.ok ⟨some 4, some 1000⟩ (7 : Nat))
      () () 0 GH.initState 0 2 =
      { result := (GH.makeRequest
          (fun (_ : Unit) (_ : Unit) k =>
            if k = 0 then GH.Response.throttle ⟨some 5, some 1000⟩
            else GH.Response.ok ⟨some 4, some 1000⟩ (7 : Nat))
          () () 0 (GH.updateRateLimit GH.initState ⟨some 5, some 1000⟩) 1 1).result,
        sleeps :=
          (match (GH.updateRateLimit GH.initState
              (⟨some 5, some 1000⟩ : GH.Headers)).rateLimitReset with
            | some reset => max (reset - 0) 60
            | none => 60) ::
          (GH.makeRequest
            (fun (_ : Unit) (_ : Unit) k =>
              if k = 0 then GH.Response.throttle ⟨some 5, some 1000⟩
              else GH.Response.ok ⟨some 4, some 1000⟩ (7 : Nat))
            () () 0 (GH.updateRateLimit GH.initState ⟨some 5, some 1000⟩) 1 1).sleeps,
        state := (GH.makeRequest
          (fun (_ : Unit) (_ : Unit) k =>
            if k = 0 then GH.Response.throttle ⟨some 5, some 1000⟩
            else GH.Response.ok ⟨some 4, some 1000⟩ (7 : Nat))
          () () 0 (GH.updateRateLimit GH.initState ⟨some 5, some 1000⟩) 1 1).state } ∧
    SO.makeRequest
      (fun (_ : Unit) (_ : Unit) k =>
        if k = 0 then SO.Response.throttle ⟨some 9⟩
        else SO.Response.ok ⟨some 8⟩ (3 : Nat))
      () () SO.initState 0 2 =
      { result := (SO.makeRequest
          (fun (_ : Unit) (_ : Unit) k =>
            if k = 0 then SO.Response.throttle ⟨some 9⟩
            else SO.Response.ok ⟨some 8⟩ (3 : Nat))
          () () (SO.updateRateLimit SO.initState ⟨some 9⟩) 1 1).result,
        sleeps :=
          (60 : Int) ::
          (SO.makeRequest
            (fun (_ : Unit) (_ : Unit) k =>
              if k = 0 then SO.Response.throttle ⟨some 9⟩
              else SO.Response.ok ⟨some 8⟩ (3 : Nat))
            () () (SO.updateRateLimit SO.initState ⟨some 9⟩) 1 1).sleeps,
        state := (SO.makeRequest
          (fun (_ : Unit) (_ : Unit) k =>
            if k = 0 then SO.Response.throttle ⟨some 9⟩
            else SO.Response.ok ⟨some 8⟩ (3 : Nat))
          () () (SO.updateRateLimit SO.initState ⟨some 9⟩) 1 1).state } :=
  throttle_wait_and_retry _ () () 0 GH.initState ⟨some 5, some 1000⟩ 1
    _ () () SO.initState ⟨some 9⟩ 1 (by decide) (by decide)

/-- C6: the retry-on-throttle recursion has no retry cap: when every
response the service produces is a throttling response, `_make_request`
never returns (no fuel bound suffices), and a run that does return must
have seen some non-throttling response. -/
theorem throttle_no_retry_cap {β ε π β' ε' π' : Type}
    (gsvc : ε → π → Nat → GH.Response β) (e : ε) (p : π) (now : Int)
    (ssvc : ε' → π' → Nat → SO.Response β') (e' : ε') (p' : π')
    (hg : ∀ k, (gsvc e p k).isThrottle = true)
    (hso : ∀ k, (ssvc e' p' k).isThrottle = true) :
    (∀ fuel s attempt, (GH.makeRequest gsvc e p now s attempt fuel).result = none) ∧
    (∀ fuel s' attempt, (SO.makeRequest ssvc e' p' s' attempt fuel).result = none) ∧
    (∀ (g2 : ε → π → Nat → GH.Response β) fuel s attempt r,
      (GH.makeRequest g2 e p now s attempt fuel).result = some r →
      ∃ k, (g2 e p k).isThrottle = false) ∧
    (∀ (s2 : ε' → π' → Nat → SO.Response β') fuel s'' attempt r,
      (SO.makeRequest s2 e' p' s'' attempt fuel).result = some r →
      ∃ k, (s2 e' p' k).isThrottle = false) := by
  refine ⟨?_, ?_, ?_, ?_⟩
  · intro fuel
    induction fuel with
    | zero => intro s attempt; rfl
    | succ n ih =>
      intro s attempt
      have hth := hg attempt
      cases hcase : gsvc e p attempt with
      | throttle h =>
        simp only [GH.makeRequest, hcase]
        exact ih _ _
      | ok h b => rw [hcase] at hth; simp [GH.Response.isThrottle] at hth
      | httpError h => rw [hcase] at hth; simp [GH.Response.isThrottle] at hth
      | netError => rw [hcase] at hth; simp [GH.Response.isThrottle] at hth
  · intro fuel
    induction fuel with
    | zero => intro s' attempt; rfl
    | succ n ih =>
      intro s' attempt
      have hth := hso attempt
      cases hcase : ssvc e' p' attempt with
      | throttle h =>
        simp only [SO.makeRequest, hcase]
        exact ih _ _
      | ok h b => rw [hcase] at hth; simp [SO.Response.isThrottle] at hth
      | httpError h => rw [hcase] at hth; simp [SO.Response.isThrottle] at hth
      | netError => rw [hcase] at hth; simp [SO.Response.isThrottle] at hth
  · intro g2 fuel
    induction fuel with
    | zero =>
      intro s attempt r h
      exact absurd h (by simp [GH.makeRequest])
    | succ n ih =>
      intro s attempt r h
      cases hcase : g2 e p attempt with
      | throttle hh =>
        have h' : (GH.makeRequest g2 e p now
            (GH.updateRateLimit s hh) (attempt + 1) n).result = some r := by
          simpa only [GH.makeRequest, hcase] using h
        exact ih _ _ r h'
      | ok hh b => exact ⟨attempt, by simp [hcase, GH.Response.isThrottle]⟩
      | httpError hh => exact ⟨attempt, by simp [hcase, GH.Response.isThrottle]⟩
      | netError => exact ⟨attempt, by simp [hcase, GH.Response.isThrottle]⟩
  · intro s2 fuel
    induction fuel with
    | zero =>
      intro s'' attempt r h
      exact absurd h (by simp [SO.makeRequest])
    | succ n ih =>
      intro s'' attempt r h
      cases hcase : s2 e' p' attempt with
      | throttle hh =>
        have h' : (SO.makeRequest s2 e' p'
            (SO.updateRateLimit s'' hh) (attempt + 1) n).result = some r := by
          simpa only [SO.makeRequest, hcase] using h
        exact ih _ _ r h'
      | ok hh b => exact ⟨attempt, by simp [hcase, SO.Response.isThrottle]⟩
      | httpError hh => exact ⟨attempt, by simp [hcase, SO.Response.isThrottle]⟩
      | netError => exact ⟨attempt, by simp [hcase, SO.Response.isThrottle]⟩

/-- Witness for `throttle_no_retry_cap`: under a service that always
answers 403 (resp. 429), the executor has not returned after five
responses. -/
theorem throttle_no_retry_cap_witness :
    (GH.makeRequest
      (fun (_ : Unit) (_ : Unit) _ => GH.Response.throttle ⟨none, none⟩)
      () () 0 GH.initState 0 5).result = (none : Option (GH.Ret Nat)) ∧
    (SO.makeRequest
      (fun (_ : Unit) (_ : Unit) _ => SO.Response.throttle ⟨none⟩)
      () () SO.initState 0 5).result = (none : Option (SO.Ret Nat)) := by
  have h := @throttle_no_retry_cap Nat Unit Unit Nat Unit Unit
    (fun _ _ _ => GH.Response.throttle ⟨none, none⟩) () () 0
    (fun _ _ _ => SO.Response.throttle ⟨none⟩) () ()
    (fun _ => rfl) (fun _ => rfl)
  exact ⟨h.1 5 GH.initState 0, h.2.1 5 SO.initState 0⟩

/-- C7: on a transport failure (`requests.RequestException`),
`_make_request` raises nothing: the GitHub executor returns the empty
mapping `{}` and the Stack Overflow executor returns the default
envelope `{'items': [], 'has_more': False}`, each leaving the rate-limit
state untouched and sleeping nowhere. -/
theorem net_failure_returns_default {β ε π β' ε' π' : Type}
    (gsvc : ε → π → Nat → GH.Response β) (e : ε) (p : π) (now : Int)
    (s : GH.State) (fuel : Nat)
    (ssvc : ε' → π' → Nat → SO.Response β') (e' : ε') (p' : π')
    (s' : SO.State) (fuel' : Nat)
    (hg : gsvc e p 0 = .netError) (hso : ssvc e' p' 0 = .netError) :
    GH.makeRequest gsvc e p now s 0 (fuel + 1) =
      { result := some .emptyDict, sleeps := [], state := s } ∧
    SO.makeRequest ssvc e' p' s' 0 (fuel' + 1) =
      { result := some .defaultEnvelope, sleeps := [], state := s' } := by
  constructor
  · simp only [GH.makeRequest, hg]
  · simp only [SO.makeRequest, hso]

/-- Witness for `net_failure_returns_default` at a concrete failing
service. -/
theorem net_failure_returns_default_witness :
    GH.makeRequest (fun (_ : Unit) (_ : Unit) _ => (GH.Response.netError : GH.Response Nat))
      () () 0 GH.initState 0 3 =
      { result := some .emptyDict, sleeps := [], state := GH.initState } ∧
    SO.makeRequest (fun (_ : Unit) (_ : Unit) _ => (SO.Response.netError : SO.Response Nat))
      () () SO.initState 0 3 =
      { result := some .defaultEnvelope, sleeps := [], state := SO.initState } :=
  net_failure_returns_default _ () () 0 GH.initState 2 _ () () SO.initState 2
    rfl rfl

/-- C8 counterexample: a 403 whose headers carry a reset timestamp,
followed by a success whose headers carry no reset timestamp, returns
the same body as an immediate success but a different final rate-limit
state — `rate_limit_reset` keeps the value taken from the throttling
response's headers, which the immediate-success run never saw. -/
theorem throttle_then_success_state_counterexample :
    ((GH.makeRequest
        (fun (_ : Unit) (_ : Unit) k =>
          if k = 0 then GH.Response.throttle ⟨some 5, some 1000⟩
          else GH.Response.ok ⟨some 4, none⟩ (7 : Nat))
        () () 0 GH.initState 0 2).result =
      (GH.makeRequest
        (fun (_ : Unit) (_ : Unit) _ => GH.Response.ok ⟨some 4, none⟩ (7 : Nat))
        () () 0 GH.initState 0 1).result) ∧
    (GH.makeRequest
        (fun (_ : Unit) (_ : Unit) k =>
          if k = 0 then GH.Response.throttle ⟨some 5, some 1000⟩
          else GH.Response.ok ⟨some 4, none⟩ (7 : Nat))
        () () 0 GH.initState 0 2).state ≠
      (GH.makeRequest
        (fun (_ : Unit) (_ : Unit) _ => GH.Response.ok ⟨some 4, none⟩ (7 : Nat))
        () () 0 GH.initState 0 1).state := by
  decide

/-- C8 amended: a throttling response followed by a successful response
yields the same returned body as an immediate success with the same
successful response; the final rate-limit state also agrees provided
the successful response's headers carry the reset timestamp (for the
GitHub executor, whose `rate_limit_reset` otherwise retains the value
from the throttling response's headers), and agrees unconditionally for
the Stack Overflow executor. Only the elapsed wait differs. -/
theorem throttle_then_success_equiv {β ε π β' ε' π' : Type}
    (gsvcA gsvcB : ε → π → Nat → GH.Response β) (e : ε) (p : π) (now : Int)
    (s : GH.State) (hd hOk : GH.Headers) (b : β)
    (ssvcA ssvcB : ε' → π' → Nat → SO.Response β') (e' : ε') (p' : π')
    (s' : SO.State) (hd' hOk' : SO.Headers) (b' : β')
    (hA0 : gsvcA e p 0 = .throttle hd) (hA1 : gsvcA e p 1 = .ok hOk b)
    (hB0 : gsvcB e p 0 = .ok hOk b)
    (hreset : hOk.reset ≠ none)
    (hsA0 : ssvcA e' p' 0 = .throttle hd') (hsA1 : ssvcA e' p' 1 = .ok hOk' b')
    (hsB0 : ssvcB e' p' 0 = .ok hOk' b') :
    (GH.makeRequest gsvcA e p now s 0 2).result =
      (GH.makeRequest gsvcB e p now s 0 1).result ∧
    (GH.makeRequest gsvcA e p now s 0 2).state =
      (GH.makeRequest gsvcB e p now s 0 1).state ∧
    (SO.makeRequest ssvcA e' p' s' 0 2).result =
      (SO.makeRequest ssvcB e' p' s' 0 1).result ∧
    (SO.makeRequest ssvcA e' p' s' 0 2).state =
      (SO.makeRequest ssvcB e' p' s' 0 1).state := by
  have hstate : GH.updateRateLimit (GH.updateRateLimit s hd) hOk =
      GH.updateRateLimit s hOk := by
    cases hr : hOk.reset with
    | none => exact absurd hr hreset
    | some r => simp [GH.updateRateLimit, hr]
  refine ⟨?_, ?_, ?_, ?_⟩
  · show (GH.makeRequest gsvcA e p now s 0 (1 + 1)).result =
      (GH.makeRequest gsvcB e p now s 0 (0 + 1)).result
    simp only [GH.makeRequest, hA0, hA1, hB0]
  · show (GH.makeRequest gsvcA e p now s 0 (1 + 1)).state =
      (GH.makeRequest gsvcB e p now s 0 (0 + 1)).state
    simp only [GH.makeRequest, hA0, hA1, hB0]
    exact hstate
  · show (SO.makeRequest ssvcA e' p' s' 0 (1 + 1)).result =
      (SO.makeRequest ssvcB e' p' s' 0 (0 + 1)).result
    simp only [SO.makeRequest, hsA0, hsA1, hsB0]
  · show (SO.makeRequest ssvcA e' p' s' 0 (1 + 1)).state =
      (SO.makeRequest ssvcB e' p' s' 0 (0 + 1)).state
    simp only [SO.makeRequest, hsA0, hsA1, hsB0]
    simp [SO.updateRateLimit]

/-- Witness for `throttle_then_success_equiv`: the success response
carries a reset header, so both runs agree on body and final state. -/
theorem throttle_then_success_equiv_witness :
    ((GH.makeRequest
        (fun (_ : Unit) (_ : Unit) k =>
          if k = 0 then GH.Response.throttle ⟨some 5, some 1000⟩
          else GH.Response.ok ⟨some 4, some 2000⟩ (7 : Nat))
        () () 0 GH.initState 0 2).result =
      (GH.makeRequest
        (fun (_ : Unit) (_ : Unit) _ => GH.Response.ok ⟨some 4, some 2000⟩ (7 : Nat))
        () () 0 GH.initState 0 1).result) ∧
    ((GH.makeRequest
        (fun (_ : Unit) (_ : Unit) k =>
          if k = 0 then GH.Response.throttle ⟨some 5, some 1000⟩
          else GH.Response.ok ⟨some 4, some 2000⟩ (7 : Nat))
        () () 0 GH.initState 0 2).state =
      (GH.makeRequest
        (fun (_ : Unit) (_ : Unit) _ => GH.Response.ok ⟨some 4, some 2000⟩ (7 : Nat))
        () () 0 GH.initState 0 1).state) ∧
    ((SO.makeRequest
        (fun (_ : Unit) (_ : Unit) k =>
          if k = 0 then SO.Response.throttle ⟨some 9⟩
          else SO.Response.ok ⟨some 8⟩ (3 : Nat))
        () () SO.initState 0 2).result =
      (SO.makeRequest
        (fun (_ : Unit) (_ : Unit) _ => SO.Response.ok ⟨some 8⟩ (3 : Nat))
        () () SO.initState 0 1).result) ∧
    ((SO.makeRequest
        (fun (_ : Unit) (_ : Unit) k =>
          if k = 0 then SO.Response.throttle ⟨some 9⟩
          else SO.Response.ok ⟨some 8⟩ (3 : Nat))
        () () SO.initState 0 2).state =
      (SO.makeRequest
        (fun (_ : Unit) (_ : Unit) _ => SO.Response.ok ⟨some 8⟩ (3 : Nat))
        () () SO.initState 0 1).state) :=
  throttle_then_success_equiv _ _ () () 0 GH.initState ⟨some 5, some 1000⟩
    ⟨some 4, some 2000⟩ 7 _ _ () () SO.initState ⟨some 9⟩ ⟨some 8⟩ 3
    (by decide) (by decide) (by decide) (by decide) (by decide) (by decide)
    (by decide)

theorem parseDates_mem {α : Type} (f : α → Option Int) :
    ∀ (l : List α) (ds : List Int), parseDates f l = some ds →
    ∀ d ∈ ds, ∃ x ∈ l, f x = some d
  | [], ds, h => by
    simp only [parseDates, Option.some_inj] at h
    subst h
    intro d hd
    exact absurd hd (List.not_mem_nil d)
  | x :: l, ds, h => by
    simp only [parseDates] at h
    cases hfx : f x with
    | none => rw [hfx] at h; exact absurd h (by simp)
    | some d0 =>
      rw [hfx] at h
      cases hrec : parseDates f l with
      | none => rw [hrec] at h; exact absurd h (by simp)
      | some ds' =>
        rw [hrec] at h
        simp only [Option.some_inj] at h
        subst h
        intro d hd
        rcases List.mem_cons.mp hd with hd0 | hd'
        · exact ⟨x, List.mem_cons_self x l, hd0 ▸ hfx⟩
        · rcases parseDates_mem f l ds' hrec d hd' with ⟨y, hy, hfy⟩
          exact ⟨y, List.mem_cons_of_mem x hy, hfy⟩

/-- C1: each batch query method (`get_language_stats`,
`get_tech_popularity_metrics`, `get_tech_demand_metrics`,
`get_tech_demand_trends`) returns one entry per input key, in input
order, no key dropped or duplicated; the entry for each key is exactly
the per-key computation, which is `none` when that key's body failed
(empty search result, unparseable date, empty tag-info items), so one
failing key never aborts the rest of the batch. -/
theorem batch_key_invariant
    (now : Int)
    (langO popO : String → List GH.Repo)
    (qO : String → Int → List SO.Question) (iO : String → List SO.TagInfo)
    (tO : List String → String → String → Option (List (String × List Rat)))
    (std : List Rat → Rat) (periods : List String)
    (langs techs stechs ttechs : List String)
    (h1 : langs.Nodup) (h2 : techs.Nodup) (h3 : stechs.Nodup)
    (h4 : ttechs.Nodup) :
    ((GH.get_language_stats langO now langs).map Prod.fst = langs ∧
      ∀ l ∈ langs, dictGet (GH.get_language_stats langO now langs) l =
        some (GH.computeLangStats now (langO l))) ∧
    ((GH.get_tech_popularity_metrics popO now techs).map Prod.fst = techs ∧
      ∀ t ∈ techs, dictGet (GH.get_tech_popularity_metrics popO now techs) t =
        some (GH.computePopMetrics now (popO t))) ∧
    ((SO.get_tech_demand_metrics qO iO now stechs).map Prod.fst = stechs ∧
      ∀ t ∈ stechs, dictGet (SO.get_tech_demand_metrics qO iO now stechs) t =
        some (SO.computeDemandMetrics now (qO t (now - 7 * 86400)) (iO t))) ∧
    ((Trends.get_tech_demand_trends tO std now periods ttechs).map Prod.fst = ttechs ∧
      ∀ t ∈ ttechs,
        dictGet (Trends.get_tech_demand_trends tO std now periods ttechs) t =
          some (some (Trends.computeTrendData tO std now periods t))) := by
  refine ⟨⟨?_, ?_⟩, ⟨?_, ?_⟩, ⟨?_, ?_⟩, ⟨?_, ?_⟩⟩
  · simpa using foldl_dictInsert_keys
      (fun l => GH.computeLangStats now (langO l)) langs [] h1 (by simp)
  · intro l hl
    exact foldl_dictInsert_get
      (fun l => GH.computeLangStats now (langO l)) langs [] h1 (by simp) l hl
  · simpa using foldl_dictInsert_keys
      (fun t => GH.computePopMetrics now (popO t)) techs [] h2 (by simp)
  · intro t ht
    exact foldl_dictInsert_get
      (fun t => GH.computePopMetrics now (popO t)) techs [] h2 (by simp) t ht
  · simpa using foldl_dictInsert_keys
      (fun t => SO.computeDemandMetrics now (qO t (now - 7 * 86400)) (iO t))
      stechs [] h3 (by simp)
  · intro t ht
    exact foldl_dictInsert_get
      (fun t => SO.computeDemandMetrics now (qO t (now - 7 * 86400)) (iO t))
      stechs [] h3 (by simp) t ht
  · simpa using foldl_dictInsert_keys
      (fun t => some (Trends.computeTrendData tO std now periods t))
      ttechs [] h4 (by simp)
  · intro t ht
    exact foldl_dictInsert_get
      (fun t => some (Trends.computeTrendData tO std now periods t))
      ttechs [] h4 (by simp) t ht

/-- Witness for `batch_key_invariant`: two-key and one-key batches with
failing oracles still yield one entry per key, `none` where the key
failed. -/
theorem batch_key_invariant_witness :
    (GH.get_language_stats (fun _ => []) 0 ["python", "rust"]).map Prod.fst =
      ["python", "rust"] ∧
    dictGet (GH.get_language_stats (fun _ => []) 0 ["python", "rust"]) "rust" =
      some none ∧
    (GH.get_tech_popularity_metrics (fun _ => []) 0 ["go"]).map Prod.fst = ["go"] ∧
    (SO.get_tech_demand_metrics (fun _ _ => []) (fun _ => []) 0 ["python"]).map
      Prod.fst = ["python"] ∧
    dictGet (SO.get_tech_demand_metrics (fun _ _ => []) (fun _ => []) 0
      ["python"]) "python" = some none ∧
    (Trends.get_tech_demand_trends (fun _ _ _ => none) (fun _ => 0) 0 []
      ["go"]).map Prod.fst = ["go"] := by
  have h := batch_key_invariant 0 (fun _ => []) (fun _ => [])
    (fun _ _ => []) (fun _ => []) (fun _ _ _ => none) (fun _ => 0) []
    ["python", "rust"] ["go"] ["python"] ["go"]
    (by decide) (by decide) (by decide) (by decide)
  refine ⟨h.1.1, ?_, h.2.1.1, h.2.2.1.1, ?_, h.2.2.2.1⟩
  · have hr := h.1.2 "rust" (by decide)
    simpa [GH.computeLangStats] using hr
  · have hp := h.2.2.1.2 "python" (by decide)
    simpa [SO.computeDemandMetrics] using hp

/-- C2 counterexample: in `get_tech_demand_metrics`, a key whose
questions request returns an empty envelope while its tag-info request
returns an item is recorded with zero-valued statistics
(`recent_questions = 0`, averages `0`), not a null entry — the claim
that every derived statistic is null whenever an underlying request
returns an empty envelope is false. -/
theorem empty_envelope_zero_counterexample :
    SO.get_tech_demand_metrics (fun _ _ => []) (fun _ => [⟨42, none⟩]) 0
      ["python"] =
      [("python",
        some { totalQuestions := 42, recentQuestions := 0, avgScore := 0,
               avgAnswers := 0, avgViews := 0, lastActivity := none,
               timestamp := 0 })] := by
  simp [SO.get_tech_demand_metrics, SO.computeDemandMetrics, dictInsert]

/-- C2 amended: an empty `items` envelope from the single repository
search yields a null entry in both GitHub batch methods, and an empty
tag-info items list yields a null entry in the Stack Overflow batch
method; but a Stack Overflow key whose questions request alone is empty
(tag info present) is recorded with zero-valued statistics, not null. -/
theorem empty_envelope_null (now : Int)
    (langO popO : String → List GH.Repo)
    (qO : String → Int → List SO.Question) (iO : String → List SO.TagInfo)
    (langs techs stechs : List String)
    (h1 : langs.Nodup) (h2 : techs.Nodup) (h3 : stechs.Nodup) :
    (∀ l ∈ langs, langO l = [] →
      dictGet (GH.get_language_stats langO now langs) l = some none) ∧
    (∀ t ∈ techs, popO t = [] →
      dictGet (GH.get_tech_popularity_metrics popO now techs) t = some none) ∧
    (∀ t ∈ stechs, iO t = [] →
      dictGet (SO.get_tech_demand_metrics qO iO now stechs) t = some none) ∧
    (∀ t ∈ stechs, ∀ info rest, qO t (now - 7 * 86400) = [] →
      iO t = info :: rest →
      dictGet (SO.get_tech_demand_metrics qO iO now stechs) t =
        some (some { totalQuestions := info.count, recentQuestions := 0,
                     avgScore := 0, avgAnswers := 0, avgViews := 0,
                     lastActivity := info.lastActivityDate,
                     timestamp := now })) := by
  refine ⟨?_, ?_, ?_, ?_⟩
  · intro l hl hempty
    have h : dictGet (GH.get_language_stats langO now langs) l =
        some (GH.computeLangStats now (langO l)) :=
      foldl_dictInsert_get
        (fun l => GH.computeLangStats now (langO l)) langs [] h1 (by simp) l hl
    rw [h, hempty]
    simp [GH.computeLangStats]
  · intro t ht hempty
    have h : dictGet (GH.get_tech_popularity_metrics popO now techs) t =
        some (GH.computePopMetrics now (popO t)) :=
      foldl_dictInsert_get
        (fun t => GH.computePopMetrics now (popO t)) techs [] h2 (by simp) t ht
    rw [h, hempty]
    simp [GH.computePopMetrics]
  · intro t ht hempty
    have h : dictGet (SO.get_tech_demand_metrics qO iO now stechs) t =
        some (SO.computeDemandMetrics now (qO t (now - 7 * 86400)) (iO t)) :=
      foldl_dictInsert_get
        (fun t => SO.computeDemandMetrics now (qO t (now - 7 * 86400)) (iO t))
        stechs [] h3 (by simp) t ht
    rw [h, hempty]
    simp [SO.computeDemandMetrics]
  · intro t ht info rest hqe hie
    have h : dictGet (SO.get_tech_demand_metrics qO iO now stechs) t =
        some (SO.computeDemandMetrics now (qO t (now - 7 * 86400)) (iO t)) :=
      foldl_dictInsert_get
        (fun t => SO.computeDemandMetrics now (qO t (now - 7 * 86400)) (iO t))
        stechs [] h3 (by simp) t ht
    rw [h, hqe, hie]
    simp [SO.computeDemandMetrics]

/-- Witness for `empty_envelope_null`: concrete empty-envelope oracles
produce null entries, and an empty questions envelope with tag info
present produces the zero-valued record. -/
theorem empty_envelope_null_witness :
    dictGet (GH.get_language_stats (fun _ => []) 5 ["python"]) "python" =
      some none ∧
    dictGet (GH.get_tech_popularity_metrics (fun _ => []) 5 ["go"]) "go" =
      some none ∧
    dictGet (SO.get_tech_demand_metrics (fun _ _ => []) (fun _ => []) 5
      ["rust"]) "rust" = some none ∧
    dictGet (SO.get_tech_demand_metrics (fun _ _ => [])
      (fun _ => [⟨9, some 3⟩]) 5 ["java"]) "java" =
      some (some { totalQuestions := 9, recentQuestions := 0, avgScore := 0,
                   avgAnswers := 0, avgViews := 0, lastActivity := some 3,
                   timestamp := 5 }) := by
  have ha := empty_envelope_null 5 (fun _ => []) (fun _ => [])
    (fun _ _ => []) (fun _ => []) ["python"] ["go"] ["rust"]
    (by decide) (by decide) (by decide)
  have hb := empty_envelope_null 5 (fun _ => []) (fun _ => [])
    (fun _ _ => []) (fun _ => [⟨9, some 3⟩]) ["python"] ["go"] ["java"]
    (by decide) (by decide) (by decide)
  exact ⟨ha.1 "python" (by decide) rfl,
    ha.2.1 "go" (by decide) rfl,
    ha.2.2.1 "rust" (by decide) rfl,
    hb.2.2.2 "java" (by decide) ⟨9, some 3⟩ [] rfl rfl⟩

theorem dictInsert_map {α γ : Type} (g : α → γ) (d : List (String × α))
    (k : String) (v : α) :
    (dictInsert d k v).map (fun p => (p.1, g p.2)) =
      dictInsert (d.map (fun p => (p.1, g p.2))) k (g v) := by
  unfold dictInsert
  have hmem : k ∈ (d.map (fun p => (p.1, g p.2))).map Prod.fst ↔
      k ∈ d.map Prod.fst := by
    simp [List.map_map, Function.comp]
  by_cases h : k ∈ d.map Prod.fst
  · rw [if_pos h, if_pos (hmem.mpr h), List.map_map, List.map_map]
    apply List.map_congr_left
    intro p _
    by_cases hpk : p.1 = k <;> simp [Function.comp, hpk]
  · rw [if_neg h, if_neg (fun hh => h (hmem.mp hh))]
    simp

theorem foldl_dictInsert_map {α γ : Type} (g : α → γ) (f : String → α) :
    ∀ (ks : List String) (d : List (String × α)),
    (ks.foldl (fun d k => dictInsert d k (f k)) d).map (fun p => (p.1, g p.2)) =
      ks.foldl (fun d k => dictInsert d k (g (f k)))
        (d.map (fun p => (p.1, g p.2)))
  | [], _ => rfl
  | a :: ks, d => by
    simp only [List.foldl_cons]
    rw [foldl_dictInsert_map g f ks (dictInsert d a (f a))]
    rw [dictInsert_map]

theorem computeLangStats_core_congr (now1 now2 : Int) (repos : List GH.Repo)
    (h : ∀ r ∈ repos, ∀ d, r.createdAt = some d →
      ((now1 - 30 * 86400 < d) ↔ (now2 - 30 * 86400 < d))) :
    (GH.computeLangStats now1 repos).map GH.LangStats.core =
      (GH.computeLangStats now2 repos).map GH.LangStats.core := by
  unfold GH.computeLangStats
  by_cases he : repos = []
  · rw [if_pos he, if_pos he]
  · rw [if_neg he, if_neg he]
    cases hpd : parseDates (fun r => r.createdAt) repos with
    | none => rfl
    | some dates =>
      have hfilter : dates.filter (fun d => decide (now1 - 30 * 86400 < d)) =
          dates.filter (fun d => decide (now2 - 30 * 86400 < d)) := by
        apply List.filter_congr
        intro d hd
        rcases parseDates_mem (fun r => r.createdAt) repos dates hpd d hd with
          ⟨r, hr, hrd⟩
        exact decide_eq_decide.mpr (h r hr d hrd)
      simp only [Option.map_some', GH.LangStats.core, hfilter]

theorem computeDemandMetrics_core_congr (now1 now2 : Int)
    (questions : List SO.Question) (infoItems : List SO.TagInfo) :
    (SO.computeDemandMetrics now1 questions infoItems).map SO.DemandMetrics.core =
      (SO.computeDemandMetrics now2 questions infoItems).map
        SO.DemandMetrics.core := by
  cases infoItems <;> simp [SO.computeDemandMetrics, SO.DemandMetrics.core]

/-- C9 counterexample: re-running `get_language_stats` with identical
parameters against an unchanged upstream dataset one day later yields a
different mapping, because each entry embeds the wall-clock timestamp
of the run (`datetime.now().isoformat()`). -/
theorem rerun_timestamp_counterexample :
    GH.get_language_stats (fun _ => [⟨4, 2, 1, 0, some 0, some 0⟩]) 0
      ["python"] ≠
    GH.get_language_stats (fun _ => [⟨4, 2, 1, 0, some 0, some 0⟩]) 86400
      ["python"] := by
  simp [GH.get_language_stats, GH.computeLangStats, parseDates, dictInsert,
    GH.LangStats.mk.injEq]

/-- C9 amended: re-running a batch query with identical parameters
against an unchanged upstream dataset produces entries identical in
every statistic except the embedded run timestamp, provided the shifted
recency cutoffs classify each item identically (for `get_language_stats`
the 30-day window; for `get_tech_demand_metrics` the 7-day questions
window must return the same items). -/
theorem rerun_stable_modulo_timestamp (now1 now2 : Int)
    (langO : String → List GH.Repo)
    (qO : String → Int → List SO.Question) (iO : String → List SO.TagInfo)
    (langs stechs : List String)
    (hrec : ∀ l ∈ langs, ∀ r ∈ langO l, ∀ d, r.createdAt = some d →
      ((now1 - 30 * 86400 < d) ↔ (now2 - 30 * 86400 < d)))
    (hq : ∀ t ∈ stechs, qO t (now1 - 7 * 86400) = qO t (now2 - 7 * 86400)) :
    (GH.get_language_stats langO now1 langs).map
        (fun p => (p.1, p.2.map GH.LangStats.core)) =
      (GH.get_language_stats langO now2 langs).map
        (fun p => (p.1, p.2.map GH.LangStats.core)) ∧
    (SO.get_tech_demand_metrics qO iO now1 stechs).map
        (fun p => (p.1, p.2.map SO.DemandMetrics.core)) =
      (SO.get_tech_demand_metrics qO iO now2 stechs).map
        (fun p => (p.1, p.2.map SO.DemandMetrics.core)) := by
  constructor
  · have e1 := foldl_dictInsert_map (Option.map GH.LangStats.core)
      (fun l => GH.computeLangStats now1 (langO l)) langs []
    have e2 := foldl_dictInsert_map (Option.map GH.LangStats.core)
      (fun l => GH.computeLangStats now2 (langO l)) langs []
    show (langs.foldl _ []).map _ = (langs.foldl _ []).map _
    rw [e1, e2]
    exact foldl_dictInsert_congr _ _ langs []
      (fun l hl => computeLangStats_core_congr now1 now2 (langO l)
        (fun r hr d hd => hrec l hl r hr d hd))
  · have e1 := foldl_dictInsert_map (Option.map SO.DemandMetrics.core)
      (fun t => SO.computeDemandMetrics now1 (qO t (now1 - 7 * 86400)) (iO t))
      stechs []
    have e2 := foldl_dictInsert_map (Option.map SO.DemandMetrics.core)
      (fun t => SO.computeDemandMetrics now2 (qO t (now2 - 7 * 86400)) (iO t))
      stechs []
    show (stechs.foldl _ []).map _ = (stechs.foldl _ []).map _
    rw [e1, e2]
    refine foldl_dictInsert_congr _ _ stechs [] (fun t ht => ?_)
    rw [hq t ht]
    exact computeDemandMetrics_core_congr now1 now2 (qO t (now2 - 7 * 86400))
      (iO t)

/-- Witness for `rerun_stable_modulo_timestamp`: one-key batches whose
items fall inside both recency windows give timestamp-stripped entries
equal across runs at `now = 0` and `now = 86400`. -/
theorem rerun_stable_modulo_timestamp_witness :
    (GH.get_language_stats (fun _ => [⟨4, 2, 1, 0, some 0, some 0⟩]) 0
        ["python"]).map (fun p => (p.1, p.2.map GH.LangStats.core)) =
      (GH.get_language_stats (fun _ => [⟨4, 2, 1, 0, some 0, some 0⟩]) 86400
        ["python"]).map (fun p => (p.1, p.2.map GH.LangStats.core)) ∧
    (SO.get_tech_demand_metrics (fun _ _ => [⟨3, 1, 10⟩])
        (fun _ => [⟨9, some 3⟩]) 0 ["rust"]).map
        (fun p => (p.1, p.2.map SO.DemandMetrics.core)) =
      (SO.get_tech_demand_metrics (fun _ _ => [⟨3, 1, 10⟩])
        (fun _ => [⟨9, some 3⟩]) 86400 ["rust"]).map
        (fun p => (p.1, p.2.map SO.DemandMetrics.core)) := by
  have h := rerun_stable_modulo_timestamp 0 86400
    (fun _ => [⟨4, 2, 1, 0, some 0, some 0⟩])
    (fun _ _ => [⟨3, 1, 10⟩]) (fun _ => [⟨9, some 3⟩])
    ["python"] ["rust"]
    (by
      intro l hl r hr d hd
      simp only [List.mem_singleton] at hr
      subst hr
      simp only [Option.some_inj] at hd
      subst hd
      constructor <;> (intro; decide))
    (fun _ _ => rfl)
  exact h

/-- C10: for more than five keywords, `get_interest_over_time` and
`get_interest_by_region` build the query payload from the first five
keywords only (`keywords[:5]`): the payload is the length-5 front of
the input in order, the remaining keywords are never sent, and both
methods return normally (no error for the dropped keywords). -/
theorem keywords_truncated_to_five
    (o ro : List String → String → String → Option (List (String × List Rat)))
    (kws : List String) (timeframe geo resolution : String)
    (h : 5 < kws.length) :
    Trends.get_interest_over_time o kws timeframe geo =
      o (kws.take 5) timeframe geo ∧
    Trends.get_interest_by_region ro kws resolution timeframe =
      ro (kws.take 5) resolution timeframe ∧
    (kws.take 5).length = 5 ∧
    kws.take 5 ++ kws.drop 5 = kws ∧
    kws.drop 5 ≠ [] := by
  refine ⟨rfl, rfl, ?_, List.take_append_drop 5 kws, ?_⟩
  · rw [List.length_take]
    omega
  · intro hd
    have hlen : (kws.drop 5).length = kws.length - 5 := List.length_drop 5 kws
    rw [hd] at hlen
    simp at hlen
    omega

/-- Witness for `keywords_truncated_to_five` at a six-keyword input. -/
theorem keywords_truncated_to_five_witness :
    Trends.get_interest_over_time (fun _ _ _ => none)
      ["a", "b", "c", "d", "e", "f"] "today 12-m" "" =
      (fun (_ : List String) (_ : String) (_ : String) =>
        (none : Option (List (String × List Rat))))
        (["a", "b", "c", "d", "e", "f"].take 5) "today 12-m" "" ∧
    Trends.get_interest_by_region (fun _ _ _ => none)
      ["a", "b", "c", "d", "e", "f"] "COUNTRY" "today 12-m" =
      (fun (_ : List String) (_ : String) (_ : String) =>
        (none : Option (List (String × List Rat))))
        (["a", "b", "c", "d", "e", "f"].take 5) "COUNTRY" "today 12-m" ∧
    (["a", "b", "c", "d", "e", "f"].take 5).length = 5 ∧
    ["a", "b", "c", "d", "e", "f"].take 5 ++
      ["a", "b", "c", "d", "e", "f"].drop 5 = ["a", "b", "c", "d", "e", "f"] ∧
    ["a", "b", "c", "d", "e", "f"].drop 5 ≠ [] :=
  keywords_truncated_to_five (fun _ _ _ => none) (fun _ _ _ => none)
    ["a", "b", "c", "d", "e", "f"] "today 12-m" "" "COUNTRY" (by decide)

theorem chunks5_nil {α : Type} : Trends.chunks5 ([] : List α) = [] := by
  rw [Trends.chunks5]
  rfl

theorem chunks5_ne_nil {α : Type} (l : List α) (h : l ≠ []) :
    Trends.chunks5 l = l.take 5 :: Trends.chunks5 (l.drop 5) := by
  rw [Trends.chunks5]
  rw [if_neg (by simpa [List.isEmpty_iff] using h)]

theorem mem_keys_of_dictGet_isSome {α : Type} :
    ∀ (d : List (String × α)) (k : String),
    (dictGet d k).isSome = true → k ∈ d.map Prod.fst
  | [], k, h => by simp [dictGet] at h
  | p :: d, k, h => by
    simp only [dictGet] at h
    by_cases hpk : p.1 = k
    · simp [← hpk]
    · rw [if_neg hpk] at h
      simp only [List.map_cons, List.mem_cons]
      exact Or.inr (mem_keys_of_dictGet_isSome d k h)

theorem inner_fold_filterMap (std : List Rat → Rat)
    (cols : List (String × List Rat)) :
    ∀ (batch : List String) (acc : List (String × Trends.TechStats)),
    batch.Nodup → (∀ t ∈ batch, t ∉ acc.map Prod.fst) →
    batch.foldl
      (fun a tech =>
        match dictGet cols tech with
        | none => a
        | some series => dictInsert a tech (Trends.mkTechStats std series))
      acc =
      acc ++ batch.filterMap
        (fun t => (dictGet cols t).map
          (fun s => (t, Trends.mkTechStats std s)))
  | [], acc, _, _ => by simp
  | a :: batch, acc, hnd, hfresh => by
    have hnd' : batch.Nodup := (List.nodup_cons.mp hnd).2
    have hna : a ∉ batch := (List.nodup_cons.mp hnd).1
    simp only [List.foldl_cons, List.filterMap_cons]
    cases hga : dictGet cols a with
    | none =>
      simp only [Option.map_none']
      exact inner_fold_filterMap std cols batch acc hnd'
        (fun t ht => hfresh t (List.mem_cons_of_mem a ht))
    | some s =>
      simp only [Option.map_some']
      rw [dictInsert_of_not_mem acc a (Trends.mkTechStats std s)
        (hfresh a (List.mem_cons_self a batch))]
      rw [inner_fold_filterMap std cols batch
        (acc ++ [(a, Trends.mkTechStats std s)]) hnd'
        (by
          intro t ht
          simp only [List.map_append, List.mem_append, List.map_cons,
            List.map_nil, List.mem_singleton, not_or]
          exact ⟨hfresh t (List.mem_cons_of_mem a ht),
            fun hta => hna (hta ▸ ht)⟩)]
      rw [List.append_assoc, List.singleton_append]

theorem filterMap_cols_keys (std : List Rat → Rat)
    (cols : List (String × List Rat)) :
    ∀ batch : List String,
    (batch.filterMap (fun t => (dictGet cols t).map
      (fun s => (t, Trends.mkTechStats std s)))).map Prod.fst =
      batch.filter (fun t => (dictGet cols t).isSome)
  | [] => rfl
  | a :: batch => by
    simp only [List.filterMap_cons, List.filter_cons]
    cases hga : dictGet cols a with
    | none => simpa using filterMap_cols_keys std cols batch
    | some s => simpa using filterMap_cols_keys std cols batch

theorem compareBatchStep_keys
    (o : List String → String → String → Option (List (String × List Rat)))
    (std : List Rat → Rat) (tf geo : String) (batch : List String)
    (acc : List (String × Trends.TechStats)) (hnd : batch.Nodup)
    (hfresh : ∀ t ∈ batch, t ∉ acc.map Prod.fst) :
    (Trends.compareBatchStep o std tf geo acc batch).map Prod.fst =
      acc.map Prod.fst ++
        batch.filter (fun t => Trends.colPresent o tf geo batch t) := by
  unfold Trends.compareBatchStep
  cases hf : Trends.get_interest_over_time o batch tf geo with
  | none =>
    simp only [Trends.colPresent, hf]
    simp
  | some cols =>
    dsimp only
    rw [inner_fold_filterMap std cols batch acc hnd hfresh]
    simp only [List.map_append, Trends.colPresent, hf]
    rw [filterMap_cols_keys]

theorem chunks_fold_keys
    (o : List String → String → String → Option (List (String × List Rat)))
    (std : List Rat → Rat) (tf geo : String) :
    ∀ (cs : List (List String)) (acc : List (String × Trends.TechStats)),
    cs.flatten.Nodup →
    (∀ t ∈ cs.flatten, t ∉ acc.map Prod.fst) →
    (cs.foldl (Trends.compareBatchStep o std tf geo) acc).map Prod.fst =
      acc.map Prod.fst ++
        cs.flatMap (fun c => c.filter (fun t => Trends.colPresent o tf geo c t))
  | [], acc, _, _ => by simp
  | c :: cs, acc, hnd, hfresh => by
    simp only [List.foldl_cons, List.flatMap_cons]
    have hnd' := List.nodup_append.mp (by simpa using hnd)
    have hndc : c.Nodup := hnd'.1
    have hndrest : cs.flatten.Nodup := hnd'.2.1
    have hdisj : c.Disjoint cs.flatten := hnd'.2.2
    have hfreshc : ∀ t ∈ c, t ∉ acc.map Prod.fst := fun t ht =>
      hfresh t (by simp only [List.flatten_cons]; exact List.mem_append_left _ ht)
    have hstep := compareBatchStep_keys o std tf geo c acc hndc hfreshc
    have hfresh' : ∀ t ∈ cs.flatten,
        t ∉ (Trends.compareBatchStep o std tf geo acc c).map Prod.fst := by
      intro t ht
      rw [hstep]
      intro hmem
      rcases List.mem_append.mp hmem with hacc | hfil
      · exact hfresh t
          (by simp only [List.flatten_cons]; exact List.mem_append_right _ ht) hacc
      · exact hdisj (List.mem_of_mem_filter hfil) ht
    rw [chunks_fold_keys o std tf geo cs _ hndrest hfresh', hstep,
      List.append_assoc]

theorem flatMap_filter_eq_filter_any (P : List String → String → Bool)
    (hP : ∀ c t, P c t = true → t ∈ c) :
    ∀ cs : List (List String), cs.flatten.Nodup →
    cs.flatMap (fun c => c.filter (fun t => P c t)) =
      cs.flatten.filter (fun t => cs.any (fun c => P c t))
  | [], _ => rfl
  | c :: cs, hnd => by
    simp only [List.flatMap_cons, List.flatten_cons, List.filter_append]
    have hnd' := List.nodup_append.mp (by simpa using hnd)
    have hndrest : cs.flatten.Nodup := hnd'.2.1
    have hdisj : c.Disjoint cs.flatten := hnd'.2.2
    have h1 : c.filter (fun t => (c :: cs).any (fun c' => P c' t)) =
        c.filter (fun t => P c t) := by
      apply List.filter_congr
      intro t ht
      simp only [List.any_cons]
      have hrest : cs.any (fun c' => P c' t) = false := by
        rw [List.any_eq_false]
        intro c' hc' hPc'
        exact hdisj ht (List.mem_flatten.mpr ⟨c', hc', hP c' t hPc'⟩)
      rw [hrest, Bool.or_false]
    have h2 : cs.flatten.filter (fun t => (c :: cs).any (fun c' => P c' t)) =
        cs.flatten.filter (fun t => cs.any (fun c' => P c' t)) := by
      apply List.filter_congr
      intro t ht
      simp only [List.any_cons]
      have hc : P c t = false := by
        cases hPc : P c t
        · rfl
        · exact (hdisj (hP c t hPc) ht).elim
      rw [hc, Bool.false_or]
    rw [h1, h2, flatMap_filter_eq_filter_any P hP cs hndrest]

theorem colPresent_mem
    (o : List String → String → String → Option (List (String × List Rat)))
    (tf geo : String) (c : List String) (t : String)
    (hcols : ∀ cols, o (c.take 5) tf geo = some cols →
      ∀ p ∈ cols, p.1 ∈ c.take 5) :
    Trends.colPresent o tf geo c t = true → t ∈ c := by
  unfold Trends.colPresent
  cases hf : Trends.get_interest_over_time o c tf geo with
  | none => simp
  | some cols =>
    intro hsome
    have hk := mem_keys_of_dictGet_isSome cols t hsome
    rcases List.mem_map.mp hk with ⟨p, hp, hpt⟩
    have hb : p.1 ∈ c.take 5 := hcols cols hf p hp
    exact List.take_subset 5 c (hpt ▸ hb)

/-- C3: for 12 keywords, `compare_technologies` splits the input into
exactly 3 sequential chunks of sizes 5, 5, 2 preserving order (one
interest-over-time request per chunk), and the merged output contains
exactly the keywords present as a column in at least one chunk's
response; a keyword absent from the response columns is omitted from
the output, not recorded as an error.  (`hcols` states that a response
only carries columns for the keywords that were requested.) -/
theorem compare_technologies_chunking
    (o : List String → String → String → Option (List (String × List Rat)))
    (std : List Rat → Rat) (now : Int) (timeframe geo : String)
    (techs : List String)
    (hlen : techs.length = 12) (hnd : techs.Nodup)
    (hcols : ∀ batch cols, o batch timeframe geo = some cols →
      ∀ p ∈ cols, p.1 ∈ batch) :
    Trends.chunks5 techs =
      [techs.take 5, (techs.drop 5).take 5, techs.drop 10] ∧
    (Trends.chunks5 techs).map List.length = [5, 5, 2] ∧
    (Trends.chunks5 techs).flatten = techs ∧
    (Trends.compare_technologies o std now timeframe geo techs).technologies.map
        Prod.fst =
      techs.filter (fun t => (Trends.chunks5 techs).any
        (fun c => Trends.colPresent o timeframe geo c t)) ∧
    (∀ t ∈ techs,
      (∀ c ∈ Trends.chunks5 techs,
        Trends.colPresent o timeframe geo c t = false) →
      dictGet
        (Trends.compare_technologies o std now timeframe geo techs).technologies
        t = none) := by
  have hne : techs ≠ [] := by
    intro h
    rw [h] at hlen
    simp at hlen
  have hlen5 : (techs.drop 5).length = 7 := by
    simp [List.length_drop, hlen]
  have hlen10 : (techs.drop 10).length = 2 := by
    simp [List.length_drop, hlen]
  have hne5 : techs.drop 5 ≠ [] := by
    intro h
    rw [h] at hlen5
    simp at hlen5
  have hne10 : techs.drop 10 ≠ [] := by
    intro h
    rw [h] at hlen10
    simp at hlen10
  have ed : (techs.drop 5).drop 5 = techs.drop 10 := by
    rw [List.drop_drop]
  have ed2 : (techs.drop 10).drop 5 = [] :=
    List.drop_eq_nil_of_le (by rw [hlen10]; omega)
  have e4 : (techs.drop 10).take 5 = techs.drop 10 :=
    List.take_of_length_le (by rw [hlen10]; omega)
  have hchunks : Trends.chunks5 techs =
      [techs.take 5, (techs.drop 5).take 5, techs.drop 10] := by
    rw [chunks5_ne_nil techs hne, chunks5_ne_nil (techs.drop 5) hne5, ed,
      chunks5_ne_nil (techs.drop 10) hne10, e4, ed2, chunks5_nil]
  have hflat : (Trends.chunks5 techs).flatten = techs := by
    rw [hchunks]
    simp only [List.flatten_cons, List.flatten_nil, List.append_nil]
    rw [← ed, List.take_append_drop, List.take_append_drop]
  have hkeys :
      (Trends.compare_technologies o std now timeframe geo techs).technologies.map
        Prod.fst =
      (Trends.chunks5 techs).flatMap
        (fun c => c.filter (fun t => Trends.colPresent o timeframe geo c t)) := by
    have h := chunks_fold_keys o std timeframe geo (Trends.chunks5 techs) []
      (by rw [hflat]; exact hnd) (by simp)
    simpa using h
  have hany := flatMap_filter_eq_filter_any
    (fun c t => Trends.colPresent o timeframe geo c t)
    (fun c t hP => colPresent_mem o timeframe geo c t
      (fun cols hc p hp => hcols (c.take 5) cols hc p hp) hP)
    (Trends.chunks5 techs) (by rw [hflat]; exact hnd)
  have hkeysall :
      (Trends.compare_technologies o std now timeframe geo techs).technologies.map
        Prod.fst =
      techs.filter (fun t => (Trends.chunks5 techs).any
        (fun c => Trends.colPresent o timeframe geo c t)) := by
    rw [hkeys, hany, hflat]
  refine ⟨hchunks, ?_, hflat, hkeysall, ?_⟩
  · rw [hchunks]
    simp [List.length_take, List.length_drop, hlen]
  · intro t _ hnone
    apply dictGet_eq_none_of_not_mem
    rw [hkeysall]
    intro hmem
    rcases List.mem_filter.mp hmem with ⟨_, hp⟩
    rcases List.any_eq_true.mp hp with ⟨c, hc, hPc⟩
    rw [hnone c hc] at hPc
    exact absurd hPc (by simp)

/-- Witness for `compare_technologies_chunking`: twelve distinct
keywords against a service that returns a column for every requested
keyword; all twelve keys appear in the merged output. -/
theorem compare_technologies_chunking_witness :
    Trends.chunks5 ["a", "b", "c", "d", "e", "f", "g", "h", "i", "j", "k", "l"] =
      [["a", "b", "c", "d", "e", "f", "g", "h", "i", "j", "k", "l"].take 5,
       (["a", "b", "c", "d", "e", "f", "g", "h", "i", "j", "k", "l"].drop 5).take 5,
       ["a", "b", "c", "d", "e", "f", "g", "h", "i", "j", "k", "l"].drop 10] ∧
    (Trends.chunks5
      ["a", "b", "c", "d", "e", "f", "g", "h", "i", "j", "k", "l"]).map
      List.length = [5, 5, 2] ∧
    (Trends.chunks5
      ["a", "b", "c", "d", "e", "f", "g", "h", "i", "j", "k", "l"]).flatten =
      ["a", "b", "c", "d", "e", "f", "g", "h", "i", "j", "k", "l"] ∧
    (Trends.compare_technologies
        (fun b _ _ => some (b.map (fun t => (t, [1])))) (fun _ => 0) 0
        "today 12-m" ""
        ["a", "b", "c", "d", "e", "f", "g", "h", "i", "j", "k", "l"]).technologies.map
      Prod.fst =
      ["a", "b", "c", "d", "e", "f", "g", "h", "i", "j", "k", "l"].filter
        (fun t =>
          (Trends.chunks5
            ["a", "b", "c", "d", "e", "f", "g", "h", "i", "j", "k", "l"]).any
            (fun c => Trends.colPresent
              (fun b _ _ => some (b.map (fun t => (t, [1]))))
              "today 12-m" "" c t)) := by
  have h := compare_technologies_chunking
    (fun b _ _ => some (b.map (fun t => (t, [1])))) (fun _ => 0) 0
    "today 12-m" "" ["a", "b", "c", "d", "e", "f", "g", "h", "i", "j", "k", "l"]
    (by decide) (by decide)
    (by
      intro batch cols hc p hp
      simp only [Option.some_inj] at hc
      subst hc
      rcases List.mem_map.mp hp with ⟨t, ht, hpt⟩
      rw [← hpt]
      exact ht)
  exact ⟨h.1, h.2.1, h.2.2.1, h.2.2.2.1⟩
